import Mathlib

/-!
Verification of the post-processing and pose-recovery pipeline of the
`paz` EfficientPose debugger example (`examples/efficientpose/debugger.py`).

Real numbers of the Python code are embedded as rationals (`ℚ`); every
floating-point constant appearing in the code (`1.25`, `np.pi`) is exactly
representable as an IEEE double and is embedded as the exact rational value
of that double.  Numpy arrays are embedded as (nested) lists.
-/

namespace PazSpec

/-- Corner box: `(x_min, y_min, x_max, y_max)`. -/
abbrev Q4 := ℚ × ℚ × ℚ × ℚ

/-- Python's `int()` on a rational number: truncation toward zero. -/
def pyInt (q : ℚ) : ℤ := if 0 ≤ q then ⌊q⌋ else ⌈q⌉

/-- `denormalize_box` from `examples/efficientpose/debugger.py` (lines 82-98):
`height, width = 512*1.25, 640`, each coordinate multiplied by the fixed
dimension and truncated with `int()`; the `image_shape` argument is bound
but never used. -/
def denormalize_box (box : Q4) (image_shape : ℕ × ℕ) : ℤ × ℤ × ℤ × ℤ :=
  let x_min := box.1
  let y_min := box.2.1
  let x_max := box.2.2.1
  let y_max := box.2.2.2
  let height : ℚ := 512 * (5 / 4)
  let width : ℚ := 640
  (pyInt (x_min * width), pyInt (y_min * height),
    pyInt (x_max * width), pyInt (y_max * height))

/-- A decoded, filtered detection as handed to drawing code:
pixel-space corner coordinates, class name, confidence score. -/
structure Box2D where
  coordinates : Q4
  class_name : String
  score : ℚ
deriving DecidableEq

instance : Inhabited Box2D := ⟨⟨(0, 0, 0, 0), "", 0⟩⟩

/-- Cast an integer corner tuple back to rational coordinates. -/
def z4 (z : ℤ × ℤ × ℤ × ℤ) : Q4 := ((z.1 : ℚ), (z.2.1 : ℚ), (z.2.2.1 : ℚ), (z.2.2.2 : ℚ))

namespace DenormalizeBoxes2D

/-- `DenormalizeBoxes2D.call` from `debugger.py` (lines 75-79): takes
`image.shape[:2]` (the image is represented here by that shape) and rewrites
each box's `coordinates` with `denormalize_box`, returning the list. -/
def call (image_shape : ℕ × ℕ) (boxes2D : List Box2D) : List Box2D :=
  boxes2D.map fun box2D =>
    { box2D with coordinates := z4 (denormalize_box box2D.coordinates image_shape) }

end DenormalizeBoxes2D

/-- Intersection area of two corner boxes (clipped at zero). -/
def interArea (a b : Q4) : ℚ :=
  max 0 (min a.2.2.1 b.2.2.1 - max a.1 b.1) * max 0 (min a.2.2.2 b.2.2.2 - max a.2.1 b.2.1)

/-- Area of a corner box. -/
def boxArea (a : Q4) : ℚ := (a.2.2.1 - a.1) * (a.2.2.2 - a.2.1)

/-- Modelled from the spec: IoU, the intersection-over-union overlap ratio of
two boxes, used as the NMS suppression criterion (the repository's IoU backend
is not under `src/`).  `ℚ` division by a zero union gives 0. -/
def iou (a b : Q4) : ℚ := interArea a b / (boxArea a + boxArea b - interArea a b)

/-- One greedy suppression pass over score-sorted candidates, with explicit
recursion fuel (the fuel is always at least the list length where used, see
`greedy_nms`): emit the best remaining candidate, discard every remaining one
whose IoU with it exceeds the threshold, recurse. -/
def greedy_nms_fuel (t : ℚ) : ℕ → List (Q4 × ℚ) → List (Q4 × ℚ)
  | 0, _ => []
  | _ + 1, [] => []
  | n + 1, c :: rest =>
      c :: greedy_nms_fuel t n (rest.filter fun d => decide (iou c.1 d.1 ≤ t))

/-- Greedy suppression over an already score-sorted candidate list. -/
def greedy_nms (t : ℚ) (l : List (Q4 × ℚ)) : List (Q4 × ℚ) := greedy_nms_fuel t l.length l

/-- Sort key of NMS candidate ordering: descending score.  A stable sort with
this relation realizes the spec's tie-break "ties in score broken by original
index order (lower index wins)". -/
def scoreDesc (a b : Q4 × ℚ) : Prop := b.2 ≤ a.2

instance : DecidableRel scoreDesc := fun a b => inferInstanceAs (Decidable (b.2 ≤ a.2))

instance : IsTotal (Q4 × ℚ) scoreDesc := ⟨fun a b => le_total b.2 a.2⟩

instance : IsTrans (Q4 × ℚ) scoreDesc := ⟨fun _ _ _ h₁ h₂ => le_trans h₂ h₁⟩

/-- Modelled from the spec: `NMSEngine.suppress` for one class (the
implementation `pr.NonMaximumSuppressionPerClass` is not under `src/`):
sort candidates by descending score (stable, so score ties are broken by
original index), then greedily keep the best remaining box and discard all
remaining boxes overlapping it by more than `iou_threshold`. -/
def suppress (iou_threshold : ℚ) (cands : List (Q4 × ℚ)) : List (Q4 × ℚ) :=
  greedy_nms iou_threshold (List.insertionSort scoreDesc cands)

theorem greedy_nms_fuel_congr (t : ℚ) :
    ∀ (m n : ℕ) (l : List (Q4 × ℚ)), l.length ≤ m → l.length ≤ n →
      greedy_nms_fuel t m l = greedy_nms_fuel t n l := by
  intro m
  induction m with
  | zero =>
    intro n l hm _
    rw [Nat.le_zero] at hm
    rw [List.length_eq_zero] at hm
    subst hm
    cases n <;> rfl
  | succ m ih =>
    intro n l hm hn
    cases l with
    | nil => cases n <;> rfl
    | cons c rest =>
      cases n with
      | zero => simp at hn
      | succ n =>
        simp only [greedy_nms_fuel]
        congr 1
        exact ih n _
          (le_trans (List.length_filter_le _ _) (Nat.lt_succ_iff.mp hm))
          (le_trans (List.length_filter_le _ _) (Nat.lt_succ_iff.mp hn))

theorem greedy_nms_cons (t : ℚ) (c : Q4 × ℚ) (rest : List (Q4 × ℚ)) :
    greedy_nms t (c :: rest) =
      c :: greedy_nms t (rest.filter fun d => decide (iou c.1 d.1 ≤ t)) := by
  unfold greedy_nms
  simp only [List.length_cons, greedy_nms_fuel]
  congr 1
  exact greedy_nms_fuel_congr t _ _ _ (List.length_filter_le _ _) le_rfl

theorem greedy_nms_fuel_sublist (t : ℚ) :
    ∀ (n : ℕ) (l : List (Q4 × ℚ)), List.Sublist (greedy_nms_fuel t n l) l := by
  intro n
  induction n with
  | zero => intro l; exact List.nil_sublist l
  | succ n ih =>
    intro l
    cases l with
    | nil => exact List.nil_sublist _
    | cons c rest =>
      simp only [greedy_nms_fuel]
      exact List.Sublist.cons₂ c (List.Sublist.trans (ih _) (List.filter_sublist rest))

theorem greedy_nms_sublist (t : ℚ) (l : List (Q4 × ℚ)) :
    List.Sublist (greedy_nms t l) l :=
  greedy_nms_fuel_sublist t l.length l

/-- Any two boxes kept by one greedy pass overlap by at most the threshold
(in pass order). -/
theorem greedy_nms_fuel_pairwise (t : ℚ) :
    ∀ (n : ℕ) (l : List (Q4 × ℚ)),
      (greedy_nms_fuel t n l).Pairwise fun a b => iou a.1 b.1 ≤ t := by
  intro n
  induction n with
  | zero => intro l; exact List.Pairwise.nil
  | succ n ih =>
    intro l
    cases l with
    | nil => exact List.Pairwise.nil
    | cons c rest =>
      simp only [greedy_nms_fuel]
      refine List.Pairwise.cons (fun b hb => ?_) (ih _)
      have hb' := (greedy_nms_fuel_sublist t n _).subset hb
      have := List.of_mem_filter hb'
      exact of_decide_eq_true this

/-- A greedy pass keeps a pairwise-compatible candidate list unchanged. -/
theorem greedy_nms_fuel_of_pairwise (t : ℚ) :
    ∀ (n : ℕ) (l : List (Q4 × ℚ)), l.length ≤ n →
      (l.Pairwise fun a b => iou a.1 b.1 ≤ t) → greedy_nms_fuel t n l = l := by
  intro n
  induction n with
  | zero =>
    intro l hl _
    rw [Nat.le_zero] at hl
    rw [List.length_eq_zero] at hl
    subst hl
    rfl
  | succ n ih =>
    intro l hl hp
    cases l with
    | nil => rfl
    | cons c rest =>
      rw [List.pairwise_cons] at hp
      simp only [greedy_nms_fuel]
      have hfilter : (rest.filter fun d => decide (iou c.1 d.1 ≤ t)) = rest :=
        List.filter_eq_self.mpr fun b hb => decide_eq_true (hp.1 b hb)
      rw [hfilter, ih rest (Nat.lt_succ_iff.mp hl) hp.2]

/-- Claim C7: non-maximum suppression is idempotent: running `suppress` a
second time, at the same IoU threshold, on the kept boxes and kept scores
produced by a first run returns exactly the same list. -/
theorem nms_suppress_idempotent (t : ℚ) (cands : List (Q4 × ℚ)) :
    suppress t (suppress t cands) = suppress t cands := by
  unfold suppress
  have hs : List.Sorted scoreDesc (List.insertionSort scoreDesc cands) :=
    List.sorted_insertionSort scoreDesc cands
  have hkept : List.Sorted scoreDesc
      (greedy_nms t (List.insertionSort scoreDesc cands)) :=
    hs.sublist (greedy_nms_sublist t _)
  rw [hkept.insertionSort_eq]
  unfold greedy_nms
  exact greedy_nms_fuel_of_pairwise t _ _ le_rfl (greedy_nms_fuel_pairwise t _ _)

/-- A decoded pre-NMS detection row: corner box plus per-class scores. -/
structure Det where
  box : Q4
  scores : List ℚ
deriving DecidableEq

/-- A merged post-NMS detection row: corner box, class id, class score. -/
structure DetC where
  box : Q4
  classId : ℕ
  score : ℚ
deriving DecidableEq

instance : Inhabited DetC := ⟨⟨(0, 0, 0, 0), 0, 0⟩⟩

/-- A recovered 6D pose: rotation and translation vectors plus class name. -/
structure Pose6D where
  rotation : List ℚ
  translation : List ℚ
  class_name : String
deriving DecidableEq

instance : Inhabited Pose6D := ⟨⟨[], [], ""⟩⟩

/-- `np.pi`: the exact rational value of the IEEE double nearest π. -/
def npPi : ℚ := 884279719003555 / 281474976710656

/-- `pr.Squeeze` on a rank-3 array whose leading batch axis has size one
(used both with `axis=None` on `[1,N,C]` detections and with `axis=0` on
`[1,N,D]` pose regressions): drops the batch axis. -/
def squeeze_batch (l : List (List (List ℚ))) : List (List ℚ) := l.headD []

/-- Modelled from the spec: `BoxCodec.decode` (`pr.DecodeBoxes` is not under
`src/`): each delta component is multiplied by its variance and applied as an
offset to the prior box's center/size parameters, and the result is converted
back to corner format; the remaining row entries are the class scores. -/
def decode_boxes (prior_boxes : List Q4) (variances : Q4)
    (rows : List (List ℚ)) : List Det :=
  (rows.zip prior_boxes).map fun p =>
    let row := p.1
    let prior := p.2
    let cx := prior.1 + row.getD 0 0 * variances.1
    let cy := prior.2.1 + row.getD 1 0 * variances.2.1
    let w := prior.2.2.1 + row.getD 2 0 * variances.2.2.1
    let h := prior.2.2.2 + row.getD 3 0 * variances.2.2.2
    { box := (cx - w / 2, cy - h / 2, cx + w / 2, cy + h / 2),
      scores := row.drop 4 }

/-- Modelled from the spec: `ClassFilter.remove_ignored_class`
(`pr.RemoveClass` is not under `src/`): drops one score column when
`class_arg` names one. -/
def remove_class (class_arg : Option ℕ) (dets : List Det) : List Det :=
  match class_arg with
  | none => dets
  | some k => dets.map fun d => { d with scores := d.scores.eraseIdx k }

/-- Modelled from the spec: `pr.NonMaximumSuppressionPerClass` (not under
`src/`): greedy suppression applied independently per class, each box entering
class `c`'s candidate list with its class-`c` score. -/
def nms_per_class (nms_thresh : ℚ) (num_classes : ℕ) (dets : List Det) :
    List (List DetC) :=
  (List.range num_classes).map fun c =>
    (suppress nms_thresh (dets.map fun d => (d.box, d.scores.getD c 0))).map fun p =>
      { box := p.1, classId := c, score := p.2 }

/-- Modelled from the spec: the merge step across classes
(`pr.MergeNMSBoxWithClass` is not under `src/`): concatenate the per-class
kept boxes, each carrying its class id, in class order. -/
def merge_nms_box_with_class (l : List (List DetC)) : List DetC := l.flatten

/-- Modelled from the spec: score filtering (`pr.FilterBoxes` is not under
`src/`): retains the detections whose score passes the threshold. -/
def filter_boxes (score_thresh : ℚ) (l : List DetC) : List DetC :=
  l.filter fun d => decide (score_thresh ≤ d.score)

/-- Modelled from the spec: `pr.ToBoxes2D` (not under `src/`): wraps each
merged detection row into a `Box2D` carrying its class name. -/
def to_boxes2D (class_names : List String) (l : List DetC) : List Box2D :=
  l.map fun d =>
    { coordinates := d.box, class_name := class_names.getD d.classId "",
      score := d.score }

/-- Modelled from the spec: `ScaleBoxes2D` (the example's `processors.py` is
not under `src/`): multiplies every box coordinate by the given scale. -/
def scale_boxes2D (boxes2D : List Box2D) (scale : ℚ) : List Box2D :=
  boxes2D.map fun b =>
    { b with coordinates := (b.coordinates.1 * scale, b.coordinates.2.1 * scale,
        b.coordinates.2.2.1 * scale, b.coordinates.2.2.2 * scale) }

/-- Round half away from zero (the spec's rounding policy). -/
def roundHalfAway (q : ℚ) : ℤ := if 0 ≤ q then ⌊q + 1/2⌋ else ⌈q - 1/2⌉

/-- Modelled from the spec: `pr.RoundBoxes2D` (not under `src/`): rounds box
coordinates to integer pixels. -/
def round_boxes2D (boxes2D : List Box2D) : List Box2D :=
  boxes2D.map fun b =>
    { b with coordinates := z4 (roundHalfAway b.coordinates.1,
        roundHalfAway b.coordinates.2.1, roundHalfAway b.coordinates.2.2.1,
        roundHalfAway b.coordinates.2.2.2) }

/-- Modelled from the spec: `SelectionIndexMapper` (the example's
`ComputeSelectedIndices` is not under `src/`): for each surviving detection,
the index of the first pre-NMS row with the same box coordinates. -/
def compute_selected_indices (box_data_all : List Det) (box_data : List DetC) :
    List ℕ :=
  box_data.map fun d => box_data_all.findIdx fun a => decide (a.box = d.box)

/-- Modelled from the spec: `PoseAssembler.assemble` (the example's `ToPose6D`
is not under `src/`): one `Pose6D` per detection row, reading the row's
rotation and translation vectors; an empty box list yields an empty pose
list. -/
def to_pose_6D (class_names : List String) (box_data : List DetC)
    (rotations translations : List (List ℚ)) : List Pose6D :=
  box_data.mapIdx fun i d =>
    { rotation := rotations.getD i [], translation := translations.getD i [],
      class_name := class_names.getD d.classId "" }

/-- Construction-time configuration of `EfficientPosePostprocess`
(`debugger.py` lines 113-133): read-only after `__init__`. -/
structure EPPConfig where
  prior_boxes : List Q4
  variances : Q4
  class_names : List String
  class_arg : Option ℕ
  score_thresh : ℚ
  nms_thresh : ℚ
  num_pose_dims : ℕ
deriving DecidableEq

/-- `self.postprocess_1` (`debugger.py` lines 118-121): Squeeze, DecodeBoxes,
RemoveClass. -/
def postprocess_1 (cfg : EPPConfig) (detections : List (List (List ℚ))) :
    List Det :=
  remove_class cfg.class_arg
    (decode_boxes cfg.prior_boxes cfg.variances (squeeze_batch detections))

/-- `self.postprocess_2` (`debugger.py` lines 123-126):
NonMaximumSuppressionPerClass, then MergeNMSBoxWithClass, then FilterBoxes —
NMS runs first, score filtering only after it. -/
def postprocess_2 (cfg : EPPConfig) (box_data : List Det) : List DetC :=
  filter_boxes cfg.score_thresh
    (merge_nms_box_with_class
      (nms_per_class cfg.nms_thresh cfg.class_names.length box_data))

/-- `EfficientPosePostprocess.call` (`debugger.py` lines 135-157).  The image
argument is represented by its shape; `camera_parameter` is accepted and, as
in the code, never used.  In the zero-survivors branch the code passes the
batched regression tensors to `to_pose_6D`, which reads nothing from them
because `box_data` is empty there; the embedding passes empty lists. -/
def epp_call (cfg : EPPConfig) (image_shape : ℕ × ℕ)
    (model_output : List (List (List ℚ)) × List (List (List ℚ)))
    (image_scale : ℚ) (camera_parameter : List (List ℚ)) :
    List Box2D × List Pose6D :=
  let detections := model_output.1
  let transformations := model_output.2
  let box_data_all := postprocess_1 cfg detections
  let box_data := postprocess_2 cfg box_data_all
  let boxes2D_a := to_boxes2D cfg.class_names box_data
  let boxes2D_b := DenormalizeBoxes2D.call image_shape boxes2D_a
  let boxes2D_c := scale_boxes2D boxes2D_b (1 / image_scale)
  let boxes2D := round_boxes2D boxes2D_c
  let rotations := transformations.map fun b => b.map fun row => row.take cfg.num_pose_dims
  let translations := transformations.map fun b => b.map fun row => row.drop cfg.num_pose_dims
  if 0 < boxes2D.length then
    let selected_indices := compute_selected_indices box_data_all box_data
    let rot_sq := squeeze_batch rotations
    let rot_sel := selected_indices.map fun i => rot_sq.getD i []
    let rot_pi := rot_sel.map fun r => r.map fun v => v * npPi
    let tra_sq := squeeze_batch translations
    let tra_sel := selected_indices.map fun i => tra_sq.getD i []
    (boxes2D, to_pose_6D cfg.class_names box_data rot_pi tra_sel)
  else
    (boxes2D, to_pose_6D cfg.class_names box_data [] [])

/-- State-passing embedding of `EfficientPosePostprocess.call`: the method
body contains no assignment to `self`, so the construction-time configuration
is threaded through unchanged. -/
def epp_call_st (cfg : EPPConfig) (image_shape : ℕ × ℕ)
    (model_output : List (List (List ℚ)) × List (List (List ℚ)))
    (image_scale : ℚ) (camera_parameter : List (List ℚ)) :
    (List Box2D × List Pose6D) × EPPConfig :=
  (epp_call cfg image_shape model_output image_scale camera_parameter, cfg)

/-- Claim C1 (counterexample): rescaling the normalized box
`[0.1, 0.1, 0.3, 0.3]` to a 640x480 image does not give the pixel box
`[64, 48, 192, 144]` claimed by the spec: the code ignores the image shape
and uses the fixed height `512*1.25 = 640`, so the y-coordinates come out
as 64 and 192, not 48 and 144. -/
theorem denormalize_box_spec_example_fails :
    denormalize_box (1/10, 1/10, 3/10, 3/10) (480, 640) ≠ (64, 48, 192, 144) := by
  unfold denormalize_box pyInt
  norm_num [Prod.ext_iff]

/-- Claim C1 (amended): `denormalize_box` converts every coordinate with the
fixed width 640 and fixed height `512*1.25 = 640`, truncating toward zero via
Python `int()` with no clamping, independently of the target image shape; in
particular the box `[0.1, 0.1, 0.3, 0.3]` yields `(64, 64, 192, 192)` for
every image shape. -/
theorem denormalize_box_uses_fixed_640 :
    (∀ (box : Q4) (shape : ℕ × ℕ),
      denormalize_box box shape =
        (pyInt (box.1 * 640), pyInt (box.2.1 * 640),
          pyInt (box.2.2.1 * 640), pyInt (box.2.2.2 * 640))) ∧
    (∀ shape : ℕ × ℕ,
      denormalize_box (1/10, 1/10, 3/10, 3/10) shape = (64, 64, 192, 192)) := by
  constructor
  · intro box shape
    unfold denormalize_box
    norm_num
  · intro shape
    unfold denormalize_box pyInt
    norm_num

/-- Claim C9: the result of `denormalize_box` is independent of its
`image_shape` argument: the conversion always uses the fixed width 640 and
fixed height `512*1.25`. -/
theorem denormalize_box_shape_independent (box : Q4) (shape₁ shape₂ : ℕ × ℕ) :
    denormalize_box box shape₁ = denormalize_box box shape₂ := rfl

/-- Claim C10: `DenormalizeBoxes2D.call` returns a list of the same length
and order as its input, with only the `coordinates` field of each box
rewritten (by `denormalize_box`); `class_name` and `score` are unchanged. -/
theorem denormalizeBoxes2D_frame (shape : ℕ × ℕ) (boxes2D : List Box2D) :
    (DenormalizeBoxes2D.call shape boxes2D).length = boxes2D.length ∧
    ∀ i, i < boxes2D.length →
      ((DenormalizeBoxes2D.call shape boxes2D).getD i default).class_name =
          (boxes2D.getD i default).class_name ∧
      ((DenormalizeBoxes2D.call shape boxes2D).getD i default).score =
          (boxes2D.getD i default).score ∧
      ((DenormalizeBoxes2D.call shape boxes2D).getD i default).coordinates =
          z4 (denormalize_box ((boxes2D.getD i default).coordinates) shape) := by
  refine ⟨List.length_map _ _, fun i hi => ?_⟩
  have hmap : (DenormalizeBoxes2D.call shape boxes2D).getD i default =
      { boxes2D.getD i default with
        coordinates := z4 (denormalize_box ((boxes2D.getD i default).coordinates) shape) } := by
    unfold DenormalizeBoxes2D.call
    rw [List.getD_eq_getElem?_getD, List.getD_eq_getElem?_getD, List.getElem?_map,
      List.getElem?_eq_getElem hi]
    rfl
  rw [hmap]
  exact ⟨rfl, rfl, rfl⟩

/-- Witness for C10 at a concrete input. -/
theorem denormalizeBoxes2D_frame_witness :
    (DenormalizeBoxes2D.call (480, 640)
        [⟨(1/10, 1/10, 3/10, 3/10), "driller", 9/10⟩]).length =
      [(⟨(1/10, 1/10, 3/10, 3/10), "driller", 9/10⟩ : Box2D)].length ∧
    ((DenormalizeBoxes2D.call (480, 640)
        [⟨(1/10, 1/10, 3/10, 3/10), "driller", 9/10⟩]).getD 0 default).class_name =
      (([⟨(1/10, 1/10, 3/10, 3/10), "driller", 9/10⟩] : List Box2D).getD 0 default).class_name := by
  refine ⟨(denormalizeBoxes2D_frame (480, 640) _).1, ?_⟩
  exact ((denormalizeBoxes2D_frame (480, 640)
    [⟨(1/10, 1/10, 3/10, 3/10), "driller", 9/10⟩]).2 0 (by decide)).1

theorem to_pose_6D_length (cn : List String) (bd : List DetC)
    (r tr : List (List ℚ)) : (to_pose_6D cn bd r tr).length = bd.length := by
  simp [to_pose_6D]

/-- Claim C5: the pipeline returns exactly one `Pose6D` per surviving
detection row: `len(poses6D) == len(box_data)`, including the case of an
empty `box_data`, which yields an empty pose list. -/
theorem epp_call_one_pose_per_detection (cfg : EPPConfig) (shape : ℕ × ℕ)
    (mo : List (List (List ℚ)) × List (List (List ℚ))) (s : ℚ)
    (cam : List (List ℚ)) :
    ((epp_call cfg shape mo s cam).2).length =
      (postprocess_2 cfg (postprocess_1 cfg mo.1)).length := by
  simp only [epp_call]
  split <;> simp [to_pose_6D]

/-- Configuration used by concrete test inputs: one class named "driller",
no removed class column, score threshold 1/2, NMS threshold 9/20. -/
def cfgA : EPPConfig :=
  { prior_boxes := [], variances := (1/10, 1/10, 1/5, 1/5),
    class_names := ["driller"], class_arg := none,
    score_thresh := 1/2, nms_thresh := 9/20, num_pose_dims := 3 }

/-- Claim C3: whenever filtering and suppression leave zero surviving
detections, the pipeline returns `boxes2D = []` and `poses6D = []`; the
guarded pose-selection block is skipped and the assembler maps the empty
detection list to the empty pose list. -/
theorem epp_call_empty_detections (cfg : EPPConfig) (shape : ℕ × ℕ)
    (mo : List (List (List ℚ)) × List (List (List ℚ))) (s : ℚ)
    (cam : List (List ℚ))
    (h : postprocess_2 cfg (postprocess_1 cfg mo.1) = []) :
    epp_call cfg shape mo s cam = ([], []) := by
  simp [epp_call, h, to_boxes2D, DenormalizeBoxes2D.call, scale_boxes2D,
    round_boxes2D, to_pose_6D]

/-- Witness for C3: an empty raw detection tensor leaves zero survivors and
the pipeline returns two empty lists. -/
theorem epp_call_empty_detections_witness :
    postprocess_2 cfgA (postprocess_1 cfgA []) = [] ∧
    epp_call cfgA (480, 640) ([], []) 1 [] = ([], []) :=
  ⟨rfl, epp_call_empty_detections cfgA (480, 640) ([], []) 1 [] rfl⟩

/-- Claim C8: each post-processing call is deterministic and pure.  In the
state-passing embedding of `EfficientPosePostprocess.call` the
construction-time configuration comes back unchanged, and a second
invocation from the post-call state with identical inputs returns an
identical `(boxes2D, poses6D)` result. -/
theorem epp_call_pure (cfg : EPPConfig) (shape : ℕ × ℕ)
    (mo : List (List (List ℚ)) × List (List (List ℚ))) (s : ℚ)
    (cam : List (List ℚ)) :
    (epp_call_st cfg shape mo s cam).2 = cfg ∧
    (epp_call_st ((epp_call_st cfg shape mo s cam).2) shape mo s cam).1 =
      (epp_call_st cfg shape mo s cam).1 :=
  ⟨rfl, rfl⟩

/-- Stated from claim C2's words (the spec's `ClassFilter.filter_by_score`
contract and the `SCORE_FILTERED → NMS_SUPPRESSED` state order), for
refinement comparison only: score filtering applied to the decoded rows
before NMS, retaining rows whose maximum class score passes the threshold. -/
def filter_by_score_claimed (score_thresh : ℚ) (dets : List Det) : List Det :=
  dets.filter fun d => decide (score_thresh ≤ d.scores.foldr max 0)

/-- Stated from claim C2's words, for refinement comparison only: the claimed
stage order — score filtering first, then per-class NMS and class merge. -/
def postprocess_2_claimed (cfg : EPPConfig) (box_data : List Det) : List DetC :=
  merge_nms_box_with_class
    (nms_per_class cfg.nms_thresh cfg.class_names.length
      (filter_by_score_claimed cfg.score_thresh box_data))

/-- Configuration used by concrete test inputs for the stage-order claims:
two classes, score threshold 1/2, NMS threshold 9/20. -/
def cfgB : EPPConfig :=
  { prior_boxes := [], variances := (1/10, 1/10, 1/5, 1/5),
    class_names := ["a", "b"], class_arg := none,
    score_thresh := 1/2, nms_thresh := 9/20, num_pose_dims := 3 }

theorem postprocess_2_cfgB_eval :
    postprocess_2 cfgB [⟨(0, 0, 1, 1), [9/10, 1/10]⟩] =
      [⟨(0, 0, 1, 1), 0, 9/10⟩] := by
  have h0 : postprocess_2 cfgB [⟨(0, 0, 1, 1), [9/10, 1/10]⟩] =
      filter_boxes (1/2)
        [⟨(0, 0, 1, 1), 0, 9/10⟩, ⟨(0, 0, 1, 1), 1, 1/10⟩] := rfl
  rw [h0]
  unfold filter_boxes
  rw [List.filter_cons, List.filter_cons, List.filter_nil]
  norm_num

/-- Claim C2 (counterexample): score filtering does not happen before NMS.
With one detection whose two class scores are 0.9 and 0.1 and score threshold
0.5, the code's order (NMS per class, merge, then filter) returns one
detection, while the claimed order (filter by max score, then NMS and merge)
returns two — the class-1 detection with score 0.1 passes through NMS and is
only removed afterwards by the filter in the code's order. -/
theorem postprocess_2_stage_order_counterexample :
    postprocess_2 cfgB [⟨(0, 0, 1, 1), [9/10, 1/10]⟩] ≠
      postprocess_2_claimed cfgB [⟨(0, 0, 1, 1), [9/10, 1/10]⟩] := by
  have hR : postprocess_2_claimed cfgB [⟨(0, 0, 1, 1), [9/10, 1/10]⟩] =
      [⟨(0, 0, 1, 1), 0, 9/10⟩, ⟨(0, 0, 1, 1), 1, 1/10⟩] := by
    have h1 : filter_by_score_claimed (1/2) [⟨(0, 0, 1, 1), [9/10, 1/10]⟩] =
        [(⟨(0, 0, 1, 1), [9/10, 1/10]⟩ : Det)] := by
      unfold filter_by_score_claimed
      rw [List.filter_cons, List.filter_nil]
      have hm : List.foldr max 0 [(9:ℚ)/10, 1/10] = 9/10 := by
        show max ((9:ℚ)/10) (max (1/10) 0) = 9/10
        rw [show max ((1:ℚ)/10) 0 = 1/10 from max_eq_left (by norm_num)]
        exact max_eq_left (by norm_num)
      simp [hm]
      norm_num
    show merge_nms_box_with_class
        (nms_per_class (9/20) 2 (filter_by_score_claimed (1/2)
          [⟨(0, 0, 1, 1), [9/10, 1/10]⟩])) = _
    rw [h1]
    rfl
  rw [postprocess_2_cfgB_eval, hR]
  intro h
  exact absurd (congrArg List.length h) (by decide)

/-- Claim C2 (amended): the filtering/suppression stage of the pipeline
applies per-class NMS with class merge first and the score filter only after
it (so below-threshold detections participate in NMS); every detection the
stage returns passes the score threshold. -/
theorem postprocess_2_stage_order (cfg : EPPConfig) (box_data : List Det) :
    postprocess_2 cfg box_data =
      filter_boxes cfg.score_thresh
        (merge_nms_box_with_class
          (nms_per_class cfg.nms_thresh cfg.class_names.length box_data)) ∧
    ∀ d ∈ postprocess_2 cfg box_data, cfg.score_thresh ≤ d.score := by
  refine ⟨rfl, fun d hd => ?_⟩
  unfold postprocess_2 filter_boxes at hd
  exact of_decide_eq_true (List.mem_filter.mp hd).2

/-- Witness for C2's amended theorem at a concrete input. -/
theorem postprocess_2_stage_order_witness :
    cfgB.score_thresh ≤ (DetC.score ⟨(0, 0, 1, 1), 0, 9/10⟩) := by
  refine (postprocess_2_stage_order cfgB [⟨(0, 0, 1, 1), [9/10, 1/10]⟩]).2
    ⟨(0, 0, 1, 1), 0, 9/10⟩ ?_
  rw [postprocess_2_cfgB_eval]
  exact List.mem_singleton.mpr rfl

theorem suppress_singleton (t : ℚ) (c : Q4 × ℚ) : suppress t [c] = [c] := rfl

/-- Evaluation of the filtering/suppression stage on a single decoded
detection with a single class whose score passes the threshold. -/
theorem postprocess_2_single_eval (cfg : EPPConfig) (d : Det)
    (hcn : cfg.class_names.length = 1)
    (hpass : cfg.score_thresh ≤ d.scores.getD 0 0) :
    postprocess_2 cfg [d] = [⟨d.box, 0, d.scores.getD 0 0⟩] := by
  unfold postprocess_2
  rw [hcn]
  have h1 : merge_nms_box_with_class (nms_per_class cfg.nms_thresh 1 [d]) =
      [⟨d.box, 0, d.scores.getD 0 0⟩] := rfl
  rw [h1]
  unfold filter_boxes
  rw [List.filter_cons, if_pos (decide_eq_true hpass)]
  rfl

/-- Stated from claim C6's words, for refinement comparison only: the inverse
image-scale correction applied to the box coordinates before denormalization
to pixel space, rounding last. -/
def rescale_claimed (shape : ℕ × ℕ) (boxes2D : List Box2D) (image_scale : ℚ) :
    List Box2D :=
  round_boxes2D (DenormalizeBoxes2D.call shape (scale_boxes2D boxes2D (1 / image_scale)))

/-- Claim C6 (amended): the inverse image-scale correction factor is applied
to the box coordinates after denormalization to pixel space (and before
rounding), not before denormalization. -/
theorem epp_call_scale_after_denormalize (cfg : EPPConfig) (shape : ℕ × ℕ)
    (mo : List (List (List ℚ)) × List (List (List ℚ))) (s : ℚ)
    (cam : List (List ℚ)) :
    (epp_call cfg shape mo s cam).1 =
      round_boxes2D (scale_boxes2D (DenormalizeBoxes2D.call shape
        (to_boxes2D cfg.class_names
          (postprocess_2 cfg (postprocess_1 cfg mo.1)))) (1 / s)) := by
  simp only [epp_call]
  split <;> rfl

/-- Configuration used by the concrete input of the scale-order
counterexample: one degenerate prior centered at the normalized point
`(1/640, 1/640)`. -/
def cfgD : EPPConfig :=
  { prior_boxes := [(1/640, 1/640, 0, 0)], variances := (1, 1, 1, 1),
    class_names := ["driller"], class_arg := none,
    score_thresh := 1/2, nms_thresh := 9/20, num_pose_dims := 3 }

/-- Claim C6 (counterexample): with one surviving detection at normalized
coordinate 1/640 and image scale 2, the pipeline (denormalize first, then
scale by 1/2, then round) returns pixel coordinate 1, while applying the
scale correction before denormalization as claimed would return 0. -/
theorem epp_call_scale_order_counterexample :
    (epp_call cfgD (480, 640) ([[[0, 0, 0, 0, 1]]], [[[2, 3, 4, 5, 6, 7]]]) 2 []).1 ≠
      rescale_claimed (480, 640)
        (to_boxes2D cfgD.class_names
          (postprocess_2 cfgD (postprocess_1 cfgD [[[0, 0, 0, 0, 1]]]))) 2 := by
  have hp1 : postprocess_1 cfgD [[[0, 0, 0, 0, 1]]] =
      [⟨((1:ℚ)/640 + 0 * 1 - (0 + 0 * 1) / 2, (1:ℚ)/640 + 0 * 1 - (0 + 0 * 1) / 2,
          (1:ℚ)/640 + 0 * 1 + (0 + 0 * 1) / 2, (1:ℚ)/640 + 0 * 1 + (0 + 0 * 1) / 2),
        [1]⟩] := rfl
  norm_num at hp1
  have hp2 : postprocess_2 cfgD (postprocess_1 cfgD [[[0, 0, 0, 0, 1]]]) =
      [⟨(1/640, 1/640, 1/640, 1/640), 0, 1⟩] := by
    rw [hp1, postprocess_2_single_eval cfgD ⟨(1/640, 1/640, 1/640, 1/640), [1]⟩ rfl
      (by norm_num [cfgD])]
    rfl
  have hbx : to_boxes2D cfgD.class_names
      (postprocess_2 cfgD (postprocess_1 cfgD [[[0, 0, 0, 0, 1]]])) =
      [⟨(1/640, 1/640, 1/640, 1/640), "driller", 1⟩] := by
    rw [hp2]
    rfl
  have hL : (epp_call cfgD (480, 640) ([[[0, 0, 0, 0, 1]]], [[[2, 3, 4, 5, 6, 7]]]) 2 []).1 =
      [⟨(1, 1, 1, 1), "driller", 1⟩] := by
    have hsplit : (epp_call cfgD (480, 640)
        ([[[0, 0, 0, 0, 1]]], [[[2, 3, 4, 5, 6, 7]]]) 2 []).1 =
        round_boxes2D (scale_boxes2D (DenormalizeBoxes2D.call (480, 640)
          (to_boxes2D cfgD.class_names
            (postprocess_2 cfgD (postprocess_1 cfgD [[[0, 0, 0, 0, 1]]])))) (1 / 2)) := by
      simp only [epp_call]
      split <;> rfl
    rw [hsplit, hbx]
    norm_num [DenormalizeBoxes2D.call, denormalize_box, pyInt, z4,
      scale_boxes2D, round_boxes2D, roundHalfAway]
  have hR : rescale_claimed (480, 640)
      (to_boxes2D cfgD.class_names
        (postprocess_2 cfgD (postprocess_1 cfgD [[[0, 0, 0, 0, 1]]]))) 2 =
      [⟨(0, 0, 0, 0), "driller", 1⟩] := by
    rw [hbx]
    norm_num [rescale_claimed, DenormalizeBoxes2D.call, denormalize_box, pyInt, z4,
      scale_boxes2D, round_boxes2D, roundHalfAway]
  rw [hL, hR]
  intro h
  simp only [List.cons.injEq, Box2D.mk.injEq, Prod.mk.injEq] at h
  exact absurd h.1.1.1 (by norm_num)

theorem getD_of_lt {α : Type} (l : List α) (i : ℕ) (h : i < l.length) (d : α) :
    l.getD i d = l.get ⟨i, h⟩ := by
  rw [List.getD_eq_getElem?_getD, List.getElem?_eq_getElem h]
  rfl

theorem getD_map_lt {α β : Type} (f : α → β) (l : List α) (i : ℕ)
    (h : i < l.length) (d : β) (e : α) :
    (l.map f).getD i d = f (l.getD i e) := by
  rw [List.getD_eq_getElem?_getD, List.getElem?_map, List.getElem?_eq_getElem h,
    getD_of_lt l i h e]
  rfl

theorem compute_selected_indices_length (all : List Det) (bd : List DetC) :
    (compute_selected_indices all bd).length = bd.length := by
  simp [compute_selected_indices]

theorem to_pose_6D_getD_rotation (cn : List String) (bd : List DetC)
    (r tr : List (List ℚ)) (i : ℕ) (h : i < bd.length) (p : Pose6D) :
    ((to_pose_6D cn bd r tr).getD i p).rotation = r.getD i [] := by
  have h2 : i < (to_pose_6D cn bd r tr).length := by
    rw [to_pose_6D_length]
    exact h
  rw [getD_of_lt _ i h2]
  unfold to_pose_6D
  rw [List.get_mapIdx bd _ i h]

theorem rescale_length (cn : List String) (shape : ℕ × ℕ) (bd : List DetC)
    (s : ℚ) :
    (round_boxes2D (scale_boxes2D (DenormalizeBoxes2D.call shape
      (to_boxes2D cn bd)) s)).length = bd.length := by
  simp [round_boxes2D, scale_boxes2D, DenormalizeBoxes2D.call, to_boxes2D]

/-- Claim C4: every rotation vector placed into a `Pose6D` by the pipeline is
the raw rotation regression row selected for that detection (via the
selection indices recovered from the pre-NMS array) with each value
multiplied by π (embedded as `npPi`, the exact double `np.pi`). -/
theorem epp_call_rotation_times_pi (cfg : EPPConfig) (shape : ℕ × ℕ)
    (mo : List (List (List ℚ)) × List (List (List ℚ))) (s : ℚ)
    (cam : List (List ℚ)) (i : ℕ)
    (h : i < ((epp_call cfg shape mo s cam).2).length) :
    (((epp_call cfg shape mo s cam).2).getD i default).rotation =
      ((squeeze_batch (mo.2.map fun b => b.map fun row =>
          row.take cfg.num_pose_dims)).getD
        ((compute_selected_indices (postprocess_1 cfg mo.1)
            (postprocess_2 cfg (postprocess_1 cfg mo.1))).getD i 0) []).map
        (fun v => v * npPi) := by
  simp only [epp_call] at h ⊢
  by_cases hc : 0 < (round_boxes2D (scale_boxes2D (DenormalizeBoxes2D.call shape
      (to_boxes2D cfg.class_names
        (postprocess_2 cfg (postprocess_1 cfg mo.1)))) (1 / s))).length
  · rw [if_pos hc] at h ⊢
    rw [to_pose_6D_length] at h
    rw [to_pose_6D_getD_rotation _ _ _ _ i h]
    have hm1 : i < ((compute_selected_indices (postprocess_1 cfg mo.1)
        (postprocess_2 cfg (postprocess_1 cfg mo.1))).map fun j =>
          (squeeze_batch (mo.2.map fun b => b.map fun row =>
            row.take cfg.num_pose_dims)).getD j []).length := by
      rw [List.length_map, compute_selected_indices_length]
      exact h
    rw [getD_map_lt _ _ i hm1 [] []]
    have hm2 : i < (compute_selected_indices (postprocess_1 cfg mo.1)
        (postprocess_2 cfg (postprocess_1 cfg mo.1))).length := by
      rw [compute_selected_indices_length]
      exact h
    rw [getD_map_lt _ _ i hm2 [] 0]
  · rw [if_neg hc] at h ⊢
    rw [to_pose_6D_length] at h
    rw [rescale_length] at hc
    exact absurd (Nat.lt_of_le_of_lt (Nat.zero_le i) h) hc

/-- Configuration used by the concrete input of the rotation-scaling
witness: one prior box of size 2 centered at the origin. -/
def cfgC : EPPConfig :=
  { prior_boxes := [(0, 0, 2, 2)], variances := (1, 1, 1, 1),
    class_names := ["driller"], class_arg := none,
    score_thresh := 1/2, nms_thresh := 9/20, num_pose_dims := 3 }

/-- Witness for C4: a single detection survives and its pose's rotation
vector is the selected raw rotation row scaled by `npPi`. -/
theorem epp_call_rotation_times_pi_witness :
    0 < ((epp_call cfgC (480, 640)
        ([[[0, 0, 0, 0, 1]]], [[[2, 3, 4, 5, 6, 7]]]) 1 []).2).length ∧
    (((epp_call cfgC (480, 640)
        ([[[0, 0, 0, 0, 1]]], [[[2, 3, 4, 5, 6, 7]]]) 1 []).2).getD 0 default).rotation =
      ((squeeze_batch (([[[2, 3, 4, 5, 6, 7]]] : List (List (List ℚ))).map fun b =>
          b.map fun row => row.take cfgC.num_pose_dims)).getD
        ((compute_selected_indices (postprocess_1 cfgC [[[0, 0, 0, 0, 1]]])
            (postprocess_2 cfgC (postprocess_1 cfgC [[[0, 0, 0, 0, 1]]]))).getD 0 0) []).map
        (fun v => v * npPi) := by
  have hp1 : postprocess_1 cfgC [[[0, 0, 0, 0, 1]]] =
      [⟨((0:ℚ) + 0 * 1 - (2 + 0 * 1) / 2, (0:ℚ) + 0 * 1 - (2 + 0 * 1) / 2,
          (0:ℚ) + 0 * 1 + (2 + 0 * 1) / 2, (0:ℚ) + 0 * 1 + (2 + 0 * 1) / 2),
        [1]⟩] := rfl
  norm_num [-Prod.mk_one_one, -Prod.mk_zero_zero] at hp1
  have hp2 : postprocess_2 cfgC (postprocess_1 cfgC [[[0, 0, 0, 0, 1]]]) =
      [⟨(-1, -1, 1, 1), 0, 1⟩] := by
    rw [hp1, postprocess_2_single_eval cfgC ⟨(-1, -1, 1, 1), [1]⟩ rfl
      (by norm_num [cfgC])]
    rfl
  have hlenq : ((epp_call cfgC (480, 640)
      ([[[0, 0, 0, 0, 1]]], [[[2, 3, 4, 5, 6, 7]]]) 1 []).2).length =
      (postprocess_2 cfgC (postprocess_1 cfgC [[[0, 0, 0, 0, 1]]])).length := by
    simp only [epp_call]
    split <;> simp [to_pose_6D]
  have hlen : 0 < ((epp_call cfgC (480, 640)
      ([[[0, 0, 0, 0, 1]]], [[[2, 3, 4, 5, 6, 7]]]) 1 []).2).length := by
    rw [hlenq, hp2]
    decide
  exact ⟨hlen, epp_call_rotation_times_pi cfgC (480, 640)
    ([[[0, 0, 0, 0, 1]]], [[[2, 3, 4, 5, 6, 7]]]) 1 [] 0 hlen⟩

end PazSpec
